import Mathlib

/-!
Verification of the AEM (Altruistic Effectiveness Metric) scoring engine.

This file gives a shallow embedding of the scoring engine implemented in
`aem_calculator.py` (class `AEMCalculator`): the six raw metric extractors,
the fuzzy policy evaluator, the entropy weight calculator, the
multi-dimensional normalizer, the weight combiner / aggregator, and the
analysis utilities (sensitivity analysis, cross-entity comparison).

Modelling conventions:
* Python floats are modelled as real numbers; input record fields are
  rational numbers (cast into the reals where the engine does real-valued
  arithmetic such as `exp`, `log`, `sqrt`).
* A Python dict of the six metrics is modelled as a function `Metric → ℝ`
  over the six-constructor enumeration `Metric`, listed in the insertion
  order used by the source (so positional `zip`s over `.values()` align).
* Fallible code (dict subscripts that can raise `KeyError`, `math.log10`
  on a non-positive argument raising `ValueError`) is modelled in
  `Except String`; the first raised error propagates, as in Python.
* Optional record fields are `Option ℚ`: `none` models an absent key.
-/

/-- The six metrics, in the insertion order of the `raw_metrics` and
`base_weights` dictionaries of the source. -/
inductive Metric where
  | program_expense_ratio
  | fundraising_efficiency
  | revenue_sustainability
  | net_surplus_margin
  | executive_pay_reasonableness
  | transparency
deriving DecidableEq, Repr

open Metric

/-- Sum of a metric-indexed family, in dictionary order: the meaning of
`sum(d.values())` for a dict with the six metric keys. -/
noncomputable def sumM (f : Metric → ℝ) : ℝ :=
  f program_expense_ratio + f fundraising_efficiency + f revenue_sustainability
    + f net_surplus_margin + f executive_pay_reasonableness + f transparency

/-- Maximum of a metric-indexed family: the meaning of `max(d.values())`. -/
noncomputable def maxM (f : Metric → ℝ) : ℝ :=
  max (f program_expense_ratio) (max (f fundraising_efficiency)
    (max (f revenue_sustainability) (max (f net_surplus_margin)
      (max (f executive_pay_reasonableness) (f transparency)))))

/-- The input financial record (`financials` dict).  `none` models an
absent key; `largest_program_expenses` keeps each program's `expenses`
entry; `top_individual_salaries` and `policies` are ordered mappings, with
`[]` modelling an absent or empty dict (both are falsy in Python). -/
structure FinancialRecord where
  organization_name : String
  total_revenue : Option ℚ := none
  total_expenses : Option ℚ := none
  contributions_and_grants : Option ℚ := none
  program_service_revenue : Option ℚ := none
  fundraising_expenses : Option ℚ := none
  largest_program_expenses : Option (List (String × ℚ)) := none
  top_individual_salaries : List (String × ℚ) := []
  policies : List (String × Bool) := []
  program_expense_ratio : Option ℚ := none
  fundraising_efficiency : Option ℚ := none
deriving DecidableEq

/-- `AEMCalculator.base_weights` (0.30 / 0.20 / 0.15 / 0.15 / 0.10 / 0.10). -/
noncomputable def base_weights : Metric → ℝ
  | program_expense_ratio => 3/10
  | fundraising_efficiency => 1/5
  | revenue_sustainability => 3/20
  | net_surplus_margin => 3/20
  | executive_pay_reasonableness => 1/10
  | transparency => 1/10

/-- `AEMCalculator.sigmoid_shift` (defined in the constructor; unused by
`_sigmoid_normalization`, which hardcodes a shift of 0). -/
noncomputable def sigmoid_shift : ℝ := 1/2

/-- `AEMCalculator.sigmoid_scale` (defined in the constructor; unused by
`_sigmoid_normalization`, which hardcodes a steepness of 3). -/
noncomputable def sigmoid_scale : ℝ := 10

/-- The values of `AEMCalculator.policy_weights`, in insertion order:
conflict-of-interest 0.3, whistleblower 0.3, document-retention 0.2,
compensation-review 0.2. -/
def policy_weights_values : List ℚ := [3/10, 3/10, 1/5, 1/5]

/-- `AEMCalculator._sigmoid_normalization`: `1 / (1 + exp(-3 x))`. -/
noncomputable def sigmoid_normalization (x : ℝ) : ℝ :=
  1 / (1 + Real.exp (-3 * x))

/-- `sum(weight * (1.0 if policy else 0.0) for policy, weight in zip(bs, ws))`:
the truncating positional zip used by `_fuzzy_policy_evaluation`. -/
def zipPolicyScore : List Bool → List ℚ → ℚ
  | b :: bs, w :: ws => (if b then w else 0) + zipPolicyScore bs ws
  | _, _ => 0

/-- `AEMCalculator._fuzzy_policy_evaluation`: 0.0 on an empty/absent flag
set, otherwise the sigmoid of the positional weighted sum of the flag
values against the policy weight values. -/
noncomputable def fuzzy_policy_evaluation (policies : List (String × Bool)) : ℝ :=
  if policies = [] then 0
  else sigmoid_normalization ((zipPolicyScore (policies.map Prod.snd) policy_weights_values : ℚ) : ℝ)

/-- Dict subscript `financials[key]`: `KeyError` naming the key when the
key is absent (`msg` is the full message of that `KeyError`). -/
def getField (v : Option ℚ) (msg : String) : Except String ℚ :=
  match v with
  | some q => .ok q
  | none => .error msg

/-- Sequencing in `Except`: the first error wins, as for the first raised
Python exception. -/
def bindE {α β : Type} (x : Except String α) (f : α → Except String β) : Except String β :=
  match x with
  | .error e => .error e
  | .ok a => f a

/-- `AEMCalculator._calculate_program_expense_ratio`. -/
noncomputable def calculate_program_expense_ratio (fin : FinancialRecord) : Except String ℝ :=
  match fin.program_expense_ratio with
  | some r => .ok (sigmoid_normalization ((r : ℝ) - 3/5))
  | none =>
    match fin.largest_program_expenses with
    | none => .ok 0
    | some progs =>
      bindE (getField fin.total_expenses "KeyError: total_expenses") fun te =>
        if te = 0 then .ok 0
        else .ok (sigmoid_normalization ((((progs.map Prod.snd).sum / te : ℚ) : ℝ) - 3/5))

/-- `AEMCalculator._calculate_fundraising_efficiency`; `math.log10` raises
`ValueError: math domain error` on a non-positive argument. -/
noncomputable def calculate_fundraising_efficiency (fin : FinancialRecord) : Except String ℝ :=
  match fin.fundraising_efficiency with
  | some eff =>
    if eff ≤ 0 then .error "ValueError: math domain error"
    else .ok (sigmoid_normalization (Real.logb 10 (eff : ℝ) - 4/5))
  | none =>
    bindE (getField fin.fundraising_expenses "KeyError: fundraising_expenses") fun fx =>
      if fx = 0 then .ok 0
      else
        bindE (getField fin.contributions_and_grants "KeyError: contributions_and_grants") fun cg =>
          if cg / fx ≤ 0 then .error "ValueError: math domain error"
          else .ok (sigmoid_normalization (Real.logb 10 ((cg / fx : ℚ) : ℝ) - 4/5))

/-- `AEMCalculator._calculate_revenue_sustainability`. -/
noncomputable def calculate_revenue_sustainability (fin : FinancialRecord) : Except String ℝ :=
  bindE (getField fin.total_revenue "KeyError: total_revenue") fun tr =>
    if tr = 0 then .ok 0
    else
      bindE (getField fin.program_service_revenue "KeyError: program_service_revenue") fun psr =>
        .ok (sigmoid_normalization (((psr / tr : ℚ) : ℝ) - 1/2))

/-- `AEMCalculator._calculate_net_surplus_margin`. -/
noncomputable def calculate_net_surplus_margin (fin : FinancialRecord) : Except String ℝ :=
  bindE (getField fin.total_revenue "KeyError: total_revenue") fun tr =>
    if tr = 0 then .ok 0
    else
      bindE (getField fin.total_expenses "KeyError: total_expenses") fun te =>
        .ok (sigmoid_normalization ((((tr - te) / tr : ℚ) : ℝ) - 1/20))

/-- `max(financials['top_individual_salaries'].values())` on a non-empty
salary mapping. -/
def maxSalary (s : ℚ) (rest : List ℚ) : ℚ := rest.foldl max s

/-- `AEMCalculator._calculate_executive_pay_reasonableness`.  The salary
mapping is only consulted when non-empty (Python's truthiness short
circuit), so `total_expenses` is only subscripted in that case. -/
noncomputable def calculate_executive_pay_reasonableness (fin : FinancialRecord) : Except String ℝ :=
  match fin.top_individual_salaries with
  | [] => .ok (1/2)
  | s :: rest =>
    bindE (getField fin.total_expenses "KeyError: total_expenses") fun te =>
      if te = 0 then .ok (1/2)
      else .ok (sigmoid_normalization (((3/200 - maxSalary s.2 (rest.map Prod.snd) / te : ℚ) : ℝ)))

/-- The `raw_metrics` dict of `calculate_aem`: the six extractors evaluated
in insertion order, the first raised error propagating. -/
noncomputable def rawMetrics (fin : FinancialRecord) : Except String (Metric → ℝ) :=
  bindE (calculate_program_expense_ratio fin) fun pe =>
    bindE (calculate_fundraising_efficiency fin) fun fe =>
      bindE (calculate_revenue_sustainability fin) fun rs =>
        bindE (calculate_net_surplus_margin fin) fun ns =>
          bindE (calculate_executive_pay_reasonableness fin) fun ep =>
            .ok (fun m => match m with
              | program_expense_ratio => pe
              | fundraising_efficiency => fe
              | revenue_sustainability => rs
              | net_surplus_margin => ns
              | executive_pay_reasonableness => ep
              | transparency => fuzzy_policy_evaluation fin.policies)

/-- The `epsilon = 1e-10` constant of `_calculate_entropy_weights`. -/
noncomputable def entropyEpsilon : ℝ := 1 / 10 ^ 10

/-- Shannon entropy (natural log) of the binary distribution `[p, 1-p]`,
as computed by `scipy.stats.entropy([p, 1-p])`, with `0 log 0 = 0`. -/
noncomputable def binaryEntropy (p : ℝ) : ℝ :=
  -(p * Real.log p) - (1 - p) * Real.log (1 - p)

/-- The per-metric entropies computed by `_calculate_entropy_weights`:
each metric's epsilon-adjusted share of the total, viewed as a binary
distribution. -/
noncomputable def metricEntropies (raw : Metric → ℝ) : Metric → ℝ :=
  fun m =>
    binaryEntropy ((raw m + entropyEpsilon) / sumM (fun k => raw k + entropyEpsilon))

/-- The `inverse_entropies` dict: `max_entropy - e + epsilon` per metric. -/
noncomputable def inverseEntropies (raw : Metric → ℝ) : Metric → ℝ :=
  fun m => maxM (metricEntropies raw) - metricEntropies raw m + entropyEpsilon

/-- The final stage of `_calculate_entropy_weights`, as a function of the
`inverse_entropies` values: fall back to the calculator's base weights when
`total_inverse == 0`, otherwise normalize `(inv_e + eps) / (total_inverse +
len(entropies) * eps)` (with `len(entropies) = 6`). -/
noncomputable def entropyWeightsFromInverse (bw : Metric → ℝ) (invE : Metric → ℝ) : Metric → ℝ :=
  if sumM invE = 0 then bw
  else fun m => (invE m + entropyEpsilon) / (sumM invE + 6 * entropyEpsilon)

/-- `AEMCalculator._calculate_entropy_weights`, parameterized by the
calculator instance's `base_weights` (the fallback value). -/
noncomputable def calculate_entropy_weights (bw : Metric → ℝ) (raw : Metric → ℝ) : Metric → ℝ :=
  entropyWeightsFromInverse bw (inverseEntropies raw)

/-- `np.clip(x, -3, 3)`. -/
noncomputable def clip3 (x : ℝ) : ℝ := min 3 (max (-3) x)

/-- Mean of the six raw metric values (`np.mean`). -/
noncomputable def meanM (raw : Metric → ℝ) : ℝ := sumM raw / 6

/-- Population standard deviation of the six raw metric values (`np.std`). -/
noncomputable def stdM (raw : Metric → ℝ) : ℝ :=
  Real.sqrt (sumM (fun m => (raw m - meanM raw) ^ 2) / 6)

open Classical in
/-- `AEMCalculator._multi_dimensional_normalization`: neutral 0.5 on a
constant vector (`values == values[0]` elementwise, or zero standard
deviation), otherwise the sigmoid of the z-score clipped to `[-3, 3]`. -/
noncomputable def multi_dimensional_normalization (raw : Metric → ℝ) : Metric → ℝ :=
  if ∀ m, raw m = raw program_expense_ratio then fun _ => 1/2
  else if stdM raw = 0 then fun _ => 1/2
  else fun m => sigmoid_normalization (clip3 ((raw m - meanM raw) / stdM raw))

/-- The `final_weights` dict of `calculate_aem`: the average of base and
entropy weights, renormalized by its total. -/
noncomputable def finalWeights (bw : Metric → ℝ) (raw : Metric → ℝ) : Metric → ℝ :=
  fun m =>
    (bw m + calculate_entropy_weights bw raw m) / 2
      / sumM (fun k => (bw k + calculate_entropy_weights bw raw k) / 2)

/-- The weighted sum computed at the end of `calculate_aem` (the positional
zip of `final_weights.values()` against `normalized_metrics.values()`,
which share the same key order). -/
noncomputable def scoreFromRaw (bw : Metric → ℝ) (raw : Metric → ℝ) : ℝ :=
  sumM (fun m => finalWeights bw raw m * multi_dimensional_normalization raw m)

/-- `AEMCalculator.calculate_aem` for a calculator instance whose
`base_weights` attribute is `bw` (as set up by `sensitivity_analysis`). -/
noncomputable def calculate_aemW (bw : Metric → ℝ) (fin : FinancialRecord) :
    Except String (ℝ × (Metric → ℝ)) :=
  match rawMetrics fin with
  | .error e => .error e
  | .ok raw => .ok (scoreFromRaw bw raw, multi_dimensional_normalization raw)

/-- `AEMCalculator.calculate_aem` on a freshly constructed calculator. -/
noncomputable def calculate_aem (fin : FinancialRecord) : Except String (ℝ × (Metric → ℝ)) :=
  calculate_aemW base_weights fin

/-- The `modified_weights` dict built by one iteration of
`sensitivity_analysis`: the base weights with the chosen metric's weight
scaled by `1 + variation`. -/
noncomputable def perturbedWeights (variation : ℝ) (m : Metric) : Metric → ℝ :=
  Function.update base_weights m (base_weights m * (1 + variation))

/-- `AEMCalculator.sensitivity_analysis`: per metric, the absolute score
change under an independently perturbed weight configuration.  Errors from
`calculate_aem` (which depend only on the record) propagate. -/
noncomputable def sensitivity_analysis (fin : FinancialRecord) (variation : ℝ) :
    Except String (Metric → ℝ) :=
  match rawMetrics fin with
  | .error e => .error e
  | .ok raw =>
    .ok (fun m => |scoreFromRaw (perturbedWeights variation m) raw - scoreFromRaw base_weights raw|)

/-- `AEMCalculator.cross_validate_schools`: the Python dict literal keyed
by the two organization names; with equal names the second entry
overwrites the first. -/
noncomputable def cross_validate_schools (d1 d2 : FinancialRecord) :
    Except String (List (String × (ℝ × (Metric → ℝ)))) :=
  match calculate_aem d1 with
  | .error e => .error e
  | .ok r1 =>
    match calculate_aem d2 with
    | .error e => .error e
    | .ok r2 =>
      if d1.organization_name = d2.organization_name then .ok [(d1.organization_name, r2)]
      else .ok [(d1.organization_name, r1), (d2.organization_name, r2)]

/-! ### Basic facts about the sigmoid and the six-term sums -/

theorem sigmoid_pos (x : ℝ) : 0 < sigmoid_normalization x := by
  unfold sigmoid_normalization
  positivity

theorem sigmoid_lt_one (x : ℝ) : sigmoid_normalization x < 1 := by
  unfold sigmoid_normalization
  rw [div_lt_one (by positivity)]
  linarith [Real.exp_pos (-3 * x)]

theorem sigmoid_strictMono : StrictMono sigmoid_normalization := by
  intro x y hxy
  unfold sigmoid_normalization
  have h1 : Real.exp (-3 * y) < Real.exp (-3 * x) := by
    apply Real.exp_lt_exp.mpr; linarith
  have h2 : (0:ℝ) < 1 + Real.exp (-3 * y) := by positivity
  exact one_div_lt_one_div_of_lt (by positivity) (by linarith)

theorem sigmoid_zero : sigmoid_normalization 0 = 1/2 := by
  unfold sigmoid_normalization
  norm_num

theorem sumM_nonneg {f : Metric → ℝ} (h : ∀ m, 0 ≤ f m) : 0 ≤ sumM f := by
  unfold sumM
  have := h program_expense_ratio; have := h fundraising_efficiency
  have := h revenue_sustainability; have := h net_surplus_margin
  have := h executive_pay_reasonableness; have := h transparency
  linarith

theorem sumM_pos {f : Metric → ℝ} (h : ∀ m, 0 < f m) : 0 < sumM f := by
  unfold sumM
  have := h program_expense_ratio; have := h fundraising_efficiency
  have := h revenue_sustainability; have := h net_surplus_margin
  have := h executive_pay_reasonableness; have := h transparency
  linarith

theorem sumM_mono {f g : Metric → ℝ} (h : ∀ m, f m ≤ g m) : sumM f ≤ sumM g := by
  unfold sumM
  have := h program_expense_ratio; have := h fundraising_efficiency
  have := h revenue_sustainability; have := h net_surplus_margin
  have := h executive_pay_reasonableness; have := h transparency
  linarith

theorem sumM_div (f : Metric → ℝ) (d : ℝ) : sumM (fun m => f m / d) = sumM f / d := by
  unfold sumM
  ring

theorem le_maxM (f : Metric → ℝ) (m : Metric) : f m ≤ maxM f := by
  unfold maxM
  cases m <;> simp [le_max_iff, le_refl]

/-! ### Entropy weights: positivity, upper bound, exact normalization -/

theorem entropyEpsilon_pos : 0 < entropyEpsilon := by
  unfold entropyEpsilon; norm_num

theorem inverseEntropies_ge (raw : Metric → ℝ) (m : Metric) :
    entropyEpsilon ≤ inverseEntropies raw m := by
  unfold inverseEntropies
  have := le_maxM (metricEntropies raw) m
  linarith

theorem entropy_weights_pos (bw : Metric → ℝ) (hbw : ∀ m, 0 < bw m)
    (raw : Metric → ℝ) (m : Metric) : 0 < calculate_entropy_weights bw raw m := by
  unfold calculate_entropy_weights entropyWeightsFromInverse
  split
  · exact hbw m
  · have heps := entropyEpsilon_pos
    have h1 := inverseEntropies_ge raw program_expense_ratio
    have h2 := inverseEntropies_ge raw fundraising_efficiency
    have h3 := inverseEntropies_ge raw revenue_sustainability
    have h4 := inverseEntropies_ge raw net_surplus_margin
    have h5 := inverseEntropies_ge raw executive_pay_reasonableness
    have h6 := inverseEntropies_ge raw transparency
    have hm := inverseEntropies_ge raw m
    apply div_pos (by linarith)
    unfold sumM
    linarith

theorem sumM_inverseEntropies_pos (raw : Metric → ℝ) : 0 < sumM (inverseEntropies raw) := by
  have hinv := fun k => inverseEntropies_ge raw k
  have heps := entropyEpsilon_pos
  exact sumM_pos (fun m => lt_of_lt_of_le heps (hinv m))

theorem entropy_weights_lt_one (bw : Metric → ℝ) (hbw : ∀ m, bw m < 1)
    (raw : Metric → ℝ) (m : Metric) : calculate_entropy_weights bw raw m < 1 := by
  unfold calculate_entropy_weights entropyWeightsFromInverse
  split
  · exact hbw m
  · have heps := entropyEpsilon_pos
    have h1 := inverseEntropies_ge raw program_expense_ratio
    have h2 := inverseEntropies_ge raw fundraising_efficiency
    have h3 := inverseEntropies_ge raw revenue_sustainability
    have h4 := inverseEntropies_ge raw net_surplus_margin
    have h5 := inverseEntropies_ge raw executive_pay_reasonableness
    have h6 := inverseEntropies_ge raw transparency
    rw [div_lt_one (by unfold sumM; linarith)]
    unfold sumM
    cases m <;> linarith

theorem entropy_weights_sum_one (bw : Metric → ℝ) (raw : Metric → ℝ)
    (hbw : sumM bw = 1) : sumM (calculate_entropy_weights bw raw) = 1 := by
  unfold calculate_entropy_weights entropyWeightsFromInverse
  split
  · exact hbw
  · have hpos := sumM_inverseEntropies_pos raw
    have heps := entropyEpsilon_pos
    set T := sumM (inverseEntropies raw) with hT
    have : sumM (fun m => (inverseEntropies raw m + entropyEpsilon) / (T + 6 * entropyEpsilon))
        = sumM (fun m => inverseEntropies raw m + entropyEpsilon) / (T + 6 * entropyEpsilon) :=
      sumM_div _ _
    rw [this]
    have hsum : sumM (fun m => inverseEntropies raw m + entropyEpsilon)
        = T + 6 * entropyEpsilon := by
      rw [hT]; unfold sumM; ring
    rw [hsum, div_self (by linarith)]

theorem base_weights_pos (m : Metric) : 0 < base_weights m := by
  cases m <;> norm_num [base_weights]

theorem base_weights_lt_one (m : Metric) : base_weights m < 1 := by
  cases m <;> norm_num [base_weights]

theorem base_weights_sum_one : sumM base_weights = 1 := by
  unfold sumM base_weights
  norm_num

/-! ### Normalized metrics, final weights, and the aggregated score -/

theorem multi_norm_nonneg (raw : Metric → ℝ) (m : Metric) :
    0 ≤ multi_dimensional_normalization raw m := by
  unfold multi_dimensional_normalization
  split
  · norm_num
  · split
    · norm_num
    · exact le_of_lt (sigmoid_pos _)

theorem multi_norm_le_one (raw : Metric → ℝ) (m : Metric) :
    multi_dimensional_normalization raw m ≤ 1 := by
  unfold multi_dimensional_normalization
  split
  · norm_num
  · split
    · norm_num
    · exact le_of_lt (sigmoid_lt_one _)

theorem finalWeights_pos (bw : Metric → ℝ) (hbw : ∀ m, 0 < bw m)
    (raw : Metric → ℝ) (m : Metric) : 0 < finalWeights bw raw m := by
  have hterm : ∀ k, 0 < (bw k + calculate_entropy_weights bw raw k) / 2 := by
    intro k
    have := hbw k
    have := entropy_weights_pos bw hbw raw k
    linarith
  unfold finalWeights
  exact div_pos (hterm m) (sumM_pos hterm)

theorem finalWeights_sum_one (bw : Metric → ℝ) (hbw : ∀ m, 0 < bw m)
    (raw : Metric → ℝ) : sumM (finalWeights bw raw) = 1 := by
  have hterm : ∀ k, 0 < (bw k + calculate_entropy_weights bw raw k) / 2 := by
    intro k
    have := hbw k
    have := entropy_weights_pos bw hbw raw k
    linarith
  have htot := sumM_pos hterm
  unfold finalWeights
  rw [sumM_div, div_self (ne_of_gt htot)]

theorem scoreFromRaw_nonneg (bw : Metric → ℝ) (hbw : ∀ m, 0 < bw m)
    (raw : Metric → ℝ) : 0 ≤ scoreFromRaw bw raw := by
  unfold scoreFromRaw
  apply sumM_nonneg
  intro m
  exact mul_nonneg (le_of_lt (finalWeights_pos bw hbw raw m)) (multi_norm_nonneg raw m)

theorem scoreFromRaw_le_one (bw : Metric → ℝ) (hbw : ∀ m, 0 < bw m)
    (raw : Metric → ℝ) : scoreFromRaw bw raw ≤ 1 := by
  unfold scoreFromRaw
  have hle : sumM (fun m => finalWeights bw raw m * multi_dimensional_normalization raw m)
      ≤ sumM (finalWeights bw raw) := by
    apply sumM_mono
    intro m
    exact mul_le_of_le_one_right (le_of_lt (finalWeights_pos bw hbw raw m))
      (multi_norm_le_one raw m)
  calc sumM (fun m => finalWeights bw raw m * multi_dimensional_normalization raw m)
      ≤ sumM (finalWeights bw raw) := hle
    _ = 1 := finalWeights_sum_one bw hbw raw

/-! ### A concrete record on which the whole pipeline succeeds -/

/-- A concrete valid record: revenue 100, expenses 50, program service
revenue 30, with precomputed ratio 1 and efficiency 10 overrides. -/
def rec1 : FinancialRecord :=
  { organization_name := "Alpha School"
    total_revenue := some 100
    total_expenses := some 50
    program_service_revenue := some 30
    program_expense_ratio := some 1
    fundraising_efficiency := some 10 }

/-- The raw metric values the engine computes on `rec1`. -/
noncomputable def rawRec1 : Metric → ℝ
  | program_expense_ratio => sigmoid_normalization (2/5)
  | fundraising_efficiency => sigmoid_normalization (1/5)
  | revenue_sustainability => sigmoid_normalization (-(1/5))
  | net_surplus_margin => sigmoid_normalization (9/20)
  | executive_pay_reasonableness => 1/2
  | transparency => 0

theorem pe_rec1 : calculate_program_expense_ratio rec1 = .ok (sigmoid_normalization (2/5)) := by
  norm_num [calculate_program_expense_ratio, rec1]

theorem fe_rec1 : calculate_fundraising_efficiency rec1 = .ok (sigmoid_normalization (1/5)) := by
  norm_num [calculate_fundraising_efficiency, rec1]

theorem rs_rec1 : calculate_revenue_sustainability rec1 = .ok (sigmoid_normalization (-(1/5))) := by
  norm_num [calculate_revenue_sustainability, rec1, bindE, getField]

theorem ns_rec1 : calculate_net_surplus_margin rec1 = .ok (sigmoid_normalization (9/20)) := by
  norm_num [calculate_net_surplus_margin, rec1, bindE, getField]

theorem ep_rec1 : calculate_executive_pay_reasonableness rec1 = .ok (1/2) := by
  norm_num [calculate_executive_pay_reasonableness, rec1]

theorem rawMetrics_rec1 : rawMetrics rec1 = .ok rawRec1 := by
  unfold rawMetrics
  rw [pe_rec1, fe_rec1, rs_rec1, ns_rec1, ep_rec1]
  simp only [bindE]
  congr 1

theorem calculate_aem_rec1 :
    calculate_aem rec1
      = .ok (scoreFromRaw base_weights rawRec1, multi_dimensional_normalization rawRec1) := by
  unfold calculate_aem calculate_aemW
  rw [rawMetrics_rec1]

/-! ### Claim C1 -/

/-- Claim C1: for every valid financial record, `calculate_aem` returns a
score in `[0,1]` and a components mapping in which every one of the six
normalized metric values lies in `[0,1]`. -/
theorem claim_C1_aem_bounds (fin : FinancialRecord) (s : ℝ) (c : Metric → ℝ)
    (h : calculate_aem fin = .ok (s, c)) :
    (0 ≤ s ∧ s ≤ 1) ∧ ∀ m, 0 ≤ c m ∧ c m ≤ 1 := by
  unfold calculate_aem calculate_aemW at h
  cases hr : rawMetrics fin with
  | error e => rw [hr] at h; exact absurd h (by simp)
  | ok raw =>
    rw [hr] at h
    simp only [Except.ok.injEq, Prod.mk.injEq] at h
    obtain ⟨hs, hc⟩ := h
    subst hs hc
    exact ⟨⟨scoreFromRaw_nonneg base_weights base_weights_pos raw,
        scoreFromRaw_le_one base_weights base_weights_pos raw⟩,
      fun m => ⟨multi_norm_nonneg raw m, multi_norm_le_one raw m⟩⟩

/-- Witness for C1 at the concrete record `rec1`. -/
theorem claim_C1_witness :
    calculate_aem rec1
        = .ok (scoreFromRaw base_weights rawRec1, multi_dimensional_normalization rawRec1)
      ∧ (0 ≤ scoreFromRaw base_weights rawRec1 ∧ scoreFromRaw base_weights rawRec1 ≤ 1)
      ∧ (0 ≤ multi_dimensional_normalization rawRec1 Metric.transparency
          ∧ multi_dimensional_normalization rawRec1 Metric.transparency ≤ 1) :=
  ⟨calculate_aem_rec1,
    (claim_C1_aem_bounds rec1 _ _ calculate_aem_rec1).1,
    (claim_C1_aem_bounds rec1 _ _ calculate_aem_rec1).2 Metric.transparency⟩

/-! ### Claim C2 -/

/-- Claim C2: the aggregator computes each final weight as
`(baseWeight + entropyWeight) / 2` renormalized by the total, the six
final weights sum to 1 exactly, and the returned score is the sum over the
six metrics of `finalWeight * normalizedMetric`. -/
theorem claim_C2_final_weights (fin : FinancialRecord) (raw : Metric → ℝ) (s : ℝ)
    (c : Metric → ℝ) (h1 : rawMetrics fin = .ok raw)
    (h2 : calculate_aem fin = .ok (s, c)) :
    (∀ m, finalWeights base_weights raw m
        = (base_weights m + calculate_entropy_weights base_weights raw m) / 2
          / sumM (fun k => (base_weights k + calculate_entropy_weights base_weights raw k) / 2))
      ∧ sumM (finalWeights base_weights raw) = 1
      ∧ s = sumM (fun m => finalWeights base_weights raw m * c m) := by
  unfold calculate_aem calculate_aemW at h2
  rw [h1] at h2
  simp only [Except.ok.injEq, Prod.mk.injEq] at h2
  obtain ⟨hs, hc⟩ := h2
  subst hs hc
  exact ⟨fun m => rfl, finalWeights_sum_one base_weights base_weights_pos raw, rfl⟩

/-- Witness for C2 at the concrete record `rec1`. -/
theorem claim_C2_witness :
    rawMetrics rec1 = .ok rawRec1
      ∧ calculate_aem rec1
          = .ok (scoreFromRaw base_weights rawRec1, multi_dimensional_normalization rawRec1)
      ∧ sumM (finalWeights base_weights rawRec1) = 1
      ∧ scoreFromRaw base_weights rawRec1
          = sumM (fun m => finalWeights base_weights rawRec1 m
              * multi_dimensional_normalization rawRec1 m) :=
  ⟨rawMetrics_rec1, calculate_aem_rec1,
    (claim_C2_final_weights rec1 rawRec1 _ _ rawMetrics_rec1 calculate_aem_rec1).2.1,
    (claim_C2_final_weights rec1 rawRec1 _ _ rawMetrics_rec1 calculate_aem_rec1).2.2⟩

/-! ### Claim C4 -/

/-- Claim C4: the entropy weight calculator returns six weights in `(0,1)`
summing exactly to 1, and its final stage returns the base weights
configuration whenever the inverse-entropy total is zero, rather than
dividing by it. -/
theorem claim_C4_entropy_weights (raw : Metric → ℝ) (hraw : ∀ m, 0 ≤ raw m)
    (invE : Metric → ℝ) (hdeg : sumM invE = 0) :
    (∀ m, 0 < calculate_entropy_weights base_weights raw m
        ∧ calculate_entropy_weights base_weights raw m < 1)
      ∧ sumM (calculate_entropy_weights base_weights raw) = 1
      ∧ entropyWeightsFromInverse base_weights invE = base_weights := by
  refine ⟨fun m => ⟨entropy_weights_pos base_weights base_weights_pos raw m,
      entropy_weights_lt_one base_weights base_weights_lt_one raw m⟩,
    entropy_weights_sum_one base_weights raw base_weights_sum_one, ?_⟩
  unfold entropyWeightsFromInverse
  rw [if_pos hdeg]

/-- Witness for C4: the raw metrics of `rec1` (nonnegative) and the zero
inverse-entropy family. -/
theorem claim_C4_witness :
    (0 < calculate_entropy_weights base_weights rawRec1 Metric.transparency
        ∧ calculate_entropy_weights base_weights rawRec1 Metric.transparency < 1)
      ∧ sumM (calculate_entropy_weights base_weights rawRec1) = 1
      ∧ entropyWeightsFromInverse base_weights (fun _ => 0) = base_weights := by
  have hraw : ∀ m, 0 ≤ rawRec1 m := by
    intro m
    cases m <;> first
      | exact le_of_lt (sigmoid_pos _)
      | norm_num [rawRec1]
  have h := claim_C4_entropy_weights rawRec1 hraw (fun _ => 0) (by norm_num [sumM])
  exact ⟨h.1 Metric.transparency, h.2.1, h.2.2⟩

/-! ### Claims C5 and C10: the fuzzy policy evaluator -/

theorem zipPolicyScore_nonneg (bs : List Bool) (ws : List ℚ) (hw : ∀ w ∈ ws, 0 ≤ w) :
    0 ≤ zipPolicyScore bs ws := by
  induction bs generalizing ws with
  | nil => cases ws <;> simp [zipPolicyScore]
  | cons b bs ih =>
    cases ws with
    | nil => simp [zipPolicyScore]
    | cons w ws =>
      have h1 : (0:ℚ) ≤ w := hw w (by simp)
      have h2 := ih ws (fun x hx => hw x (by simp [hx]))
      unfold zipPolicyScore
      split <;> linarith

theorem zipPolicyScore_all_false (bs : List Bool) (ws : List ℚ) (hb : ∀ b ∈ bs, b = false) :
    zipPolicyScore bs ws = 0 := by
  induction bs generalizing ws with
  | nil => cases ws <;> simp [zipPolicyScore]
  | cons b bs ih =>
    cases ws with
    | nil => simp [zipPolicyScore]
    | cons w ws =>
      have h1 : b = false := hb b (by simp)
      have h2 := ih ws (fun x hx => hb x (by simp [hx]))
      unfold zipPolicyScore
      rw [h1, h2]
      simp

/-- Claim C10: any non-empty policies mapping scores at least 0.5, an
all-false mapping scores exactly 0.5, and the empty mapping scores 0.0 —
transparency jumps from 0.0 to at least 0.5 as soon as any flag appears. -/
theorem claim_C10_transparency_jump (ps ps2 : List (String × Bool))
    (hne : ps ≠ []) (hne2 : ps2 ≠ []) (hfalse : ∀ p ∈ ps2, p.2 = false) :
    1/2 ≤ fuzzy_policy_evaluation ps
      ∧ fuzzy_policy_evaluation ps2 = 1/2
      ∧ fuzzy_policy_evaluation [] = 0 := by
  refine ⟨?_, ?_, by simp [fuzzy_policy_evaluation]⟩
  · unfold fuzzy_policy_evaluation
    rw [if_neg hne]
    have hz : (0:ℚ) ≤ zipPolicyScore (ps.map Prod.snd) policy_weights_values :=
      zipPolicyScore_nonneg _ _ (by intro w hw; fin_cases hw <;> norm_num)
    calc (1:ℝ)/2 = sigmoid_normalization 0 := sigmoid_zero.symm
      _ ≤ _ := (sigmoid_strictMono.monotone (by exact_mod_cast hz))
  · unfold fuzzy_policy_evaluation
    rw [if_neg hne2]
    have hz : zipPolicyScore (ps2.map Prod.snd) policy_weights_values = 0 := by
      apply zipPolicyScore_all_false
      intro b hb
      rcases List.mem_map.mp hb with ⟨p, hp, hpb⟩
      rw [← hpb]
      exact hfalse p hp
    rw [hz]
    push_cast
    exact sigmoid_zero

/-- Witness for C10: a one-flag mapping and the canonical all-false
mapping. -/
theorem claim_C10_witness :
    1/2 ≤ fuzzy_policy_evaluation [("conflict_of_interest_policy", true)]
      ∧ fuzzy_policy_evaluation
          [("conflict_of_interest_policy", false), ("whistleblower_policy", false),
            ("document_retention_policy", false), ("compensation_review_process", false)] = 1/2
      ∧ fuzzy_policy_evaluation [] = 0 :=
  claim_C10_transparency_jump _ _ (by simp) (by simp) (by simp)

/-- Modelled from the spec (for comparison with the source's positional
zip): each named flag's fixed importance weight — conflict-of-interest
0.3, whistleblower 0.3, document-retention 0.2, compensation-review 0.2,
looked up by flag name. -/
def named_policy_weight (s : String) : ℚ :=
  if s = "conflict_of_interest_policy" then 3/10
  else if s = "whistleblower_policy" then 3/10
  else if s = "document_retention_policy" then 1/5
  else if s = "compensation_review_process" then 1/5
  else 0

/-- Modelled from the spec: the transparency score the claim describes —
the sigmoid of the sum over the flags of the named flag's importance
weight times 1.0 for true / 0.0 for false, with 0.0 on an empty set. -/
noncomputable def fuzzy_policy_evaluation_spec (policies : List (String × Bool)) : ℝ :=
  if policies = [] then 0
  else sigmoid_normalization
    (((policies.map (fun p => if p.2 then named_policy_weight p.1 else 0)).sum : ℚ) : ℝ)

/-- Counterexample to C5: a mapping that discloses only the
document-retention flag.  The code pairs its value with the first weight
0.3 positionally, while the claim's by-name formula assigns it weight 0.2;
the two scores differ. -/
theorem claim_C5_counterexample :
    fuzzy_policy_evaluation [("document_retention_policy", true)]
      ≠ fuzzy_policy_evaluation_spec [("document_retention_policy", true)] := by
  have h1 : fuzzy_policy_evaluation [("document_retention_policy", true)]
      = sigmoid_normalization ((3:ℝ)/10) := by
    norm_num [fuzzy_policy_evaluation, zipPolicyScore, policy_weights_values]
  have hw : named_policy_weight "document_retention_policy" = 1/5 := by
    unfold named_policy_weight
    rw [if_neg (by decide), if_neg (by decide), if_pos rfl]
  have h2 : fuzzy_policy_evaluation_spec [("document_retention_policy", true)]
      = sigmoid_normalization ((1:ℝ)/5) := by
    norm_num [fuzzy_policy_evaluation_spec, hw]
  rw [h1, h2]
  exact sigmoid_strictMono.injective.ne (by norm_num)

/-- Claim C5 as amended: the transparency score is the sigmoid of the
positional weighted sum of the flag values against the weight values
(0.3, 0.3, 0.2, 0.2 in insertion order, truncating at the shorter list);
an empty or absent flag set yields 0.0; and on a mapping listing exactly
the four flags in the canonical order this coincides with the claim's
by-name weighted sum. -/
theorem claim_C5_positional_weights (ps : List (String × Bool)) (hne : ps ≠ [])
    (b1 b2 b3 b4 : Bool) :
    fuzzy_policy_evaluation ps
        = sigmoid_normalization
          ((zipPolicyScore (ps.map Prod.snd) policy_weights_values : ℚ) : ℝ)
      ∧ fuzzy_policy_evaluation [] = 0
      ∧ fuzzy_policy_evaluation
            [("conflict_of_interest_policy", b1), ("whistleblower_policy", b2),
              ("document_retention_policy", b3), ("compensation_review_process", b4)]
          = fuzzy_policy_evaluation_spec
            [("conflict_of_interest_policy", b1), ("whistleblower_policy", b2),
              ("document_retention_policy", b3), ("compensation_review_process", b4)] := by
  refine ⟨by unfold fuzzy_policy_evaluation; rw [if_neg hne], by simp [fuzzy_policy_evaluation], ?_⟩
  unfold fuzzy_policy_evaluation fuzzy_policy_evaluation_spec
  rw [if_neg (by simp), if_neg (by simp)]
  congr 1

/-- Witness for the amended C5 at a one-flag mapping and concrete flag
values. -/
theorem claim_C5_witness :
    fuzzy_policy_evaluation [("whistleblower_policy", true)]
        = sigmoid_normalization
          ((zipPolicyScore ([("whistleblower_policy", true)].map Prod.snd)
              policy_weights_values : ℚ) : ℝ)
      ∧ fuzzy_policy_evaluation [] = 0
      ∧ fuzzy_policy_evaluation
            [("conflict_of_interest_policy", true), ("whistleblower_policy", false),
              ("document_retention_policy", true), ("compensation_review_process", false)]
          = fuzzy_policy_evaluation_spec
            [("conflict_of_interest_policy", true), ("whistleblower_policy", false),
              ("document_retention_policy", true), ("compensation_review_process", false)] :=
  claim_C5_positional_weights [("whistleblower_policy", true)] (by simp) true false true false

/-! ### Claim C3: the multi-dimensional normalizer -/

open Classical in
/-- Modelled from the spec (for comparison with the source): the
normalizer the claim describes, whose sigmoid uses the engine's configured
steepness constant `sigmoid_scale` with shift 0. -/
noncomputable def multi_dimensional_normalization_spec (raw : Metric → ℝ) : Metric → ℝ :=
  if ∀ m, raw m = raw program_expense_ratio then fun _ => 1/2
  else if stdM raw = 0 then fun _ => 1/2
  else fun m =>
    1 / (1 + Real.exp (-sigmoid_scale * clip3 ((raw m - meanM raw) / stdM raw)))

/-- A six-metric vector of three zeros and three ones (mean 1/2, standard
deviation 1/2, z-scores ±1). -/
noncomputable def raw01 : Metric → ℝ
  | program_expense_ratio => 0
  | fundraising_efficiency => 0
  | revenue_sustainability => 0
  | net_surplus_margin => 1
  | executive_pay_reasonableness => 1
  | transparency => 1

theorem raw01_not_const : ¬ ∀ m, raw01 m = raw01 program_expense_ratio := by
  intro h
  have := h net_surplus_margin
  norm_num [raw01] at this

theorem meanM_raw01 : meanM raw01 = 1/2 := by
  unfold meanM sumM
  norm_num [raw01]

theorem stdM_raw01 : stdM raw01 = 1/2 := by
  unfold stdM
  rw [show sumM (fun m => (raw01 m - meanM raw01) ^ 2) / 6 = (1/2) ^ 2 by
    rw [meanM_raw01]; unfold sumM; norm_num [raw01]]
  exact Real.sqrt_sq (by norm_num)

theorem multi_norm_raw01_pe :
    multi_dimensional_normalization raw01 program_expense_ratio
      = 1 / (1 + Real.exp 3) := by
  unfold multi_dimensional_normalization
  rw [if_neg raw01_not_const, if_neg (by rw [stdM_raw01]; norm_num)]
  rw [meanM_raw01, stdM_raw01]
  unfold sigmoid_normalization clip3
  norm_num [raw01]

theorem multi_norm_spec_raw01_pe :
    multi_dimensional_normalization_spec raw01 program_expense_ratio
      = 1 / (1 + Real.exp 10) := by
  unfold multi_dimensional_normalization_spec
  rw [if_neg raw01_not_const, if_neg (by rw [stdM_raw01]; norm_num)]
  rw [meanM_raw01, stdM_raw01]
  unfold sigmoid_scale clip3
  norm_num [raw01]

/-- Counterexample to C3: on the three-zeros / three-ones vector the code
normalizes the first metric to `1/(1+e^3)` (hardcoded steepness 3), not to
the value `1/(1+e^10)` demanded by the claim's formula with the engine's
configured steepness constant `sigmoid_scale = 10`. -/
theorem claim_C3_counterexample :
    multi_dimensional_normalization raw01 program_expense_ratio
      ≠ multi_dimensional_normalization_spec raw01 program_expense_ratio := by
  rw [multi_norm_raw01_pe, multi_norm_spec_raw01_pe]
  intro h
  have h3 := Real.exp_pos 3
  have h10 := Real.exp_pos 10
  rw [div_eq_div_iff (by linarith) (by linarith)] at h
  have : Real.exp 3 = Real.exp 10 := by linarith
  have := Real.exp_eq_exp.mp this
  norm_num at this

/-- Claim C3 as amended: all-equal inputs map every metric to 0.5;
otherwise each metric maps to `1/(1 + e^(-3 z))` for its z-score `z`
clipped to `[-3, 3]`, the steepness 3 being hardcoded in the sigmoid
routine (the configured `sigmoid_scale` is not used). -/
theorem claim_C3_normalizer (raw raw2 : Metric → ℝ)
    (hconst : ∀ m, raw m = raw program_expense_ratio)
    (hne : ¬ ∀ m, raw2 m = raw2 program_expense_ratio)
    (hstd : stdM raw2 ≠ 0) (m : Metric) :
    multi_dimensional_normalization raw m = 1/2
      ∧ multi_dimensional_normalization raw2 m
        = 1 / (1 + Real.exp (-3 * clip3 ((raw2 m - meanM raw2) / stdM raw2))) := by
  constructor
  · unfold multi_dimensional_normalization
    rw [if_pos hconst]
  · unfold multi_dimensional_normalization
    rw [if_neg hne, if_neg hstd]
    rfl

/-- Witness for the amended C3 at the constant-zero vector and the
three-zeros / three-ones vector. -/
theorem claim_C3_witness :
    multi_dimensional_normalization (fun _ => 0) program_expense_ratio = 1/2
      ∧ multi_dimensional_normalization raw01 program_expense_ratio
        = 1 / (1 + Real.exp (-3 * clip3 ((raw01 program_expense_ratio - meanM raw01)
            / stdM raw01))) :=
  claim_C3_normalizer (fun _ => 0) raw01 (fun _ => rfl) raw01_not_const
    (by rw [stdM_raw01]; norm_num) program_expense_ratio

/-! ### Claim C6: the net surplus margin extractor -/

/-- A deficit record: expenses 2 exceed revenue 1. -/
def recDeficit : FinancialRecord :=
  { organization_name := "Deficit Org"
    total_revenue := some 1
    total_expenses := some 2 }

/-- Counterexample to C6: on a record with expenses exceeding revenue the
extractor does not produce the raw margin `(1 - 2) / 1 = -1`; it returns
the sigmoid-normalized value `sigmoid(margin - 0.05)`, which is strictly
positive — the produced value is never negative. -/
theorem claim_C6_counterexample :
    calculate_net_surplus_margin recDeficit
        = .ok (sigmoid_normalization (-(21/20)))
      ∧ 0 < sigmoid_normalization (-(21/20))
      ∧ sigmoid_normalization (-(21/20)) ≠ ((1:ℝ) - 2) / 1 := by
  refine ⟨?_, sigmoid_pos _, ?_⟩
  · norm_num [calculate_net_surplus_margin, recDeficit, bindE, getField]
  · intro h
    have := sigmoid_pos (-(21/20))
    rw [h] at this
    norm_num at this

/-- Claim C6 as amended: the extractor computes the margin
`(total_revenue - total_expenses) / total_revenue` (which may be negative
for a deficit), returns 0 when `total_revenue` is 0, and otherwise returns
the strictly positive sigmoid-normalized value `sigmoid(margin - 0.05)`. -/
theorem claim_C6_net_surplus (fin : FinancialRecord) (tr te : ℚ)
    (h1 : fin.total_revenue = some tr) (h2 : fin.total_expenses = some te) :
    (tr = 0 → calculate_net_surplus_margin fin = .ok 0)
      ∧ (tr ≠ 0 →
          calculate_net_surplus_margin fin
              = .ok (sigmoid_normalization ((((tr - te) / tr : ℚ) : ℝ) - 1/20))
            ∧ 0 < sigmoid_normalization ((((tr - te) / tr : ℚ) : ℝ) - 1/20)) := by
  unfold calculate_net_surplus_margin
  rw [h1, h2]
  simp only [getField, bindE]
  constructor
  · intro h
    rw [if_pos h]
  · intro h
    rw [if_neg h]
    exact ⟨rfl, sigmoid_pos _⟩

/-- Witness for the amended C6 at the deficit record. -/
theorem claim_C6_witness :
    (((1:ℚ) = 0 → calculate_net_surplus_margin recDeficit = .ok 0)
      ∧ ((1:ℚ) ≠ 0 →
          calculate_net_surplus_margin recDeficit
              = .ok (sigmoid_normalization (((((1:ℚ) - 2) / 1 : ℚ) : ℝ) - 1/20))
            ∧ 0 < sigmoid_normalization (((((1:ℚ) - 2) / 1 : ℚ) : ℝ) - 1/20)))
      ∧ calculate_net_surplus_margin recDeficit
          = .ok (sigmoid_normalization (((((1:ℚ) - 2) / 1 : ℚ) : ℝ) - 1/20)) := by
  have h := claim_C6_net_surplus recDeficit 1 2 rfl rfl
  exact ⟨h, (h.2 (by norm_num)).1⟩

/-! ### Claim C7: error behavior of the scoring operation -/

@[simp] theorem getField_some (q : ℚ) (msg : String) : getField (some q) msg = .ok q := rfl

@[simp] theorem getField_none (msg : String) : getField none msg = .error msg := rfl

@[simp] theorem bindE_ok {α β : Type} (a : α) (f : α → Except String β) :
    bindE (.ok a) f = f a := rfl

@[simp] theorem bindE_error {α β : Type} (e : String) (f : α → Except String β) :
    bindE (.error e) f = .error e := rfl

/-- Every error message `calculate_aem` can produce: `KeyError`s naming
the missing subscripted field, plus the `math.log10` domain error. -/
def aem_error_messages : List String :=
  ["KeyError: total_expenses", "KeyError: fundraising_expenses",
    "KeyError: contributions_and_grants", "KeyError: total_revenue",
    "KeyError: program_service_revenue", "ValueError: math domain error"]

theorem pe_error_msg (fin : FinancialRecord) (e : String)
    (h : calculate_program_expense_ratio fin = .error e) :
    e = "KeyError: total_expenses" := by
  unfold calculate_program_expense_ratio at h
  cases hx : fin.program_expense_ratio with
  | some r => rw [hx] at h; exact absurd h (by simp)
  | none =>
    rw [hx] at h
    cases hy : fin.largest_program_expenses with
    | none => rw [hy] at h; exact absurd h (by simp)
    | some progs =>
      rw [hy] at h
      cases hz : fin.total_expenses with
      | none => rw [hz] at h; simp only [getField_none, bindE_error, Except.error.injEq] at h; exact h.symm
      | some te =>
        rw [hz] at h
        simp only [getField_some, bindE_ok] at h
        split at h <;> exact absurd h (by simp)

theorem fe_error_msg (fin : FinancialRecord) (e : String)
    (h : calculate_fundraising_efficiency fin = .error e) :
    e = "ValueError: math domain error" ∨ e = "KeyError: fundraising_expenses"
      ∨ e = "KeyError: contributions_and_grants" := by
  unfold calculate_fundraising_efficiency at h
  cases hx : fin.fundraising_efficiency with
  | some eff =>
    rw [hx] at h
    simp only [] at h
    split at h
    · simp only [Except.error.injEq] at h; exact Or.inl h.symm
    · exact absurd h (by simp)
  | none =>
    rw [hx] at h
    cases hy : fin.fundraising_expenses with
    | none =>
      rw [hy] at h
      simp only [getField_none, bindE_error, Except.error.injEq] at h
      exact Or.inr (Or.inl h.symm)
    | some fx =>
      rw [hy] at h
      simp only [getField_some, bindE_ok] at h
      split at h
      · exact absurd h (by simp)
      · cases hz : fin.contributions_and_grants with
        | none =>
          rw [hz] at h
          simp only [getField_none, bindE_error, Except.error.injEq] at h
          exact Or.inr (Or.inr h.symm)
        | some cg =>
          rw [hz] at h
          simp only [getField_some, bindE_ok] at h
          split at h
          · simp only [Except.error.injEq] at h; exact Or.inl h.symm
          · exact absurd h (by simp)

theorem rs_error_msg (fin : FinancialRecord) (e : String)
    (h : calculate_revenue_sustainability fin = .error e) :
    e = "KeyError: total_revenue" ∨ e = "KeyError: program_service_revenue" := by
  unfold calculate_revenue_sustainability at h
  cases hx : fin.total_revenue with
  | none =>
    rw [hx] at h
    simp only [getField_none, bindE_error, Except.error.injEq] at h
    exact Or.inl h.symm
  | some tr =>
    rw [hx] at h
    simp only [getField_some, bindE_ok] at h
    split at h
    · exact absurd h (by simp)
    · cases hy : fin.program_service_revenue with
      | none =>
        rw [hy] at h
        simp only [getField_none, bindE_error, Except.error.injEq] at h
        exact Or.inr h.symm
      | some psr => rw [hy] at h; exact absurd h (by simp)

theorem ns_error_msg (fin : FinancialRecord) (e : String)
    (h : calculate_net_surplus_margin fin = .error e) :
    e = "KeyError: total_revenue" ∨ e = "KeyError: total_expenses" := by
  unfold calculate_net_surplus_margin at h
  cases hx : fin.total_revenue with
  | none =>
    rw [hx] at h
    simp only [getField_none, bindE_error, Except.error.injEq] at h
    exact Or.inl h.symm
  | some tr =>
    rw [hx] at h
    simp only [getField_some, bindE_ok] at h
    split at h
    · exact absurd h (by simp)
    · cases hy : fin.total_expenses with
      | none =>
        rw [hy] at h
        simp only [getField_none, bindE_error, Except.error.injEq] at h
        exact Or.inr h.symm
      | some te => rw [hy] at h; exact absurd h (by simp)

theorem ep_error_msg (fin : FinancialRecord) (e : String)
    (h : calculate_executive_pay_reasonableness fin = .error e) :
    e = "KeyError: total_expenses" := by
  unfold calculate_executive_pay_reasonableness at h
  cases hx : fin.top_individual_salaries with
  | nil => rw [hx] at h; exact absurd h (by simp)
  | cons s rest =>
    rw [hx] at h
    cases hy : fin.total_expenses with
    | none =>
      rw [hy] at h
      simp only [getField_none, bindE_error, Except.error.injEq] at h
      exact h.symm
    | some te =>
      rw [hy] at h
      simp only [getField_some, bindE_ok] at h
      split at h <;> exact absurd h (by simp)

theorem rawMetrics_error_msg (fin : FinancialRecord) (e : String)
    (h : rawMetrics fin = .error e) : e ∈ aem_error_messages := by
  unfold rawMetrics at h
  cases hpe : calculate_program_expense_ratio fin with
  | error e1 =>
    rw [hpe] at h
    simp only [bindE_error, Except.error.injEq] at h
    subst h
    simp [aem_error_messages, pe_error_msg fin e1 hpe]
  | ok pe =>
    rw [hpe] at h
    simp only [bindE_ok] at h
    cases hfe : calculate_fundraising_efficiency fin with
    | error e1 =>
      rw [hfe] at h
      simp only [bindE_error, Except.error.injEq] at h
      subst h
      rcases fe_error_msg fin e1 hfe with h1 | h1 | h1 <;> simp [aem_error_messages, h1]
    | ok fe =>
      rw [hfe] at h
      simp only [bindE_ok] at h
      cases hrs : calculate_revenue_sustainability fin with
      | error e1 =>
        rw [hrs] at h
        simp only [bindE_error, Except.error.injEq] at h
        subst h
        rcases rs_error_msg fin e1 hrs with h1 | h1 <;> simp [aem_error_messages, h1]
      | ok rs =>
        rw [hrs] at h
        simp only [bindE_ok] at h
        cases hns : calculate_net_surplus_margin fin with
        | error e1 =>
          rw [hns] at h
          simp only [bindE_error, Except.error.injEq] at h
          subst h
          rcases ns_error_msg fin e1 hns with h1 | h1 <;> simp [aem_error_messages, h1]
        | ok ns =>
          rw [hns] at h
          simp only [bindE_ok] at h
          cases hep : calculate_executive_pay_reasonableness fin with
          | error e1 =>
            rw [hep] at h
            simp only [bindE_error, Except.error.injEq] at h
            subst h
            simp [aem_error_messages, ep_error_msg fin e1 hep]
          | ok ep => rw [hep] at h; exact absurd h (by simp)

theorem rs_ok_total_revenue (fin : FinancialRecord) (v : ℝ)
    (h : calculate_revenue_sustainability fin = .ok v) : fin.total_revenue ≠ none := by
  intro hnone
  unfold calculate_revenue_sustainability at h
  rw [hnone] at h
  exact absurd h (by simp)

theorem rawMetrics_ok_total_revenue (fin : FinancialRecord) (raw : Metric → ℝ)
    (h : rawMetrics fin = .ok raw) : fin.total_revenue ≠ none := by
  unfold rawMetrics at h
  cases hpe : calculate_program_expense_ratio fin with
  | error e => rw [hpe] at h; exact absurd h (by simp)
  | ok pe =>
    rw [hpe] at h
    simp only [bindE_ok] at h
    cases hfe : calculate_fundraising_efficiency fin with
    | error e => rw [hfe] at h; exact absurd h (by simp)
    | ok fe =>
      rw [hfe] at h
      simp only [bindE_ok] at h
      cases hrs : calculate_revenue_sustainability fin with
      | error e => rw [hrs] at h; exact absurd h (by simp)
      | ok v => exact rs_ok_total_revenue fin v hrs

/-- A record in which every required field is present, but whose
fundraising efficiency `contributions_and_grants / fundraising_expenses`
is `0 / 10 = 0`, so `math.log10` fails. -/
def recBad : FinancialRecord :=
  { organization_name := "Bravo School"
    total_revenue := some 100
    total_expenses := some 50
    contributions_and_grants := some 0
    program_service_revenue := some 30
    fundraising_expenses := some 10
    largest_program_expenses := some [("instruction", 40)]
    top_individual_salaries := [("head of school", 5)]
    policies := [("conflict_of_interest_policy", true), ("whistleblower_policy", true),
      ("document_retention_policy", true), ("compensation_review_process", true)] }

theorem fe_recBad :
    calculate_fundraising_efficiency recBad = .error "ValueError: math domain error" := by
  norm_num [calculate_fundraising_efficiency, recBad, bindE, getField]

theorem pe_recBad :
    calculate_program_expense_ratio recBad = .ok (sigmoid_normalization (1/5)) := by
  norm_num [calculate_program_expense_ratio, recBad, bindE, getField]

theorem calculate_aem_recBad :
    calculate_aem recBad = .error "ValueError: math domain error" := by
  unfold calculate_aem calculate_aemW rawMetrics
  rw [pe_recBad, fe_recBad]
  simp only [bindE_ok, bindE_error]

/-- A record with no revenue field at all. -/
def recNoRev : FinancialRecord := { organization_name := "No Fields Org" }

theorem calculate_aem_recNoRev :
    calculate_aem recNoRev = .error "KeyError: fundraising_expenses" := rfl

/-- Counterexample to C7: on `recBad` every required field is present
(nothing is missing), yet the scoring operation fails — and it fails with
`ValueError: math domain error`, an error that does not identify any
missing required field. -/
theorem claim_C7_counterexample :
    calculate_aem recBad = .error "ValueError: math domain error"
      ∧ recBad.total_revenue.isSome = true
      ∧ recBad.total_expenses.isSome = true
      ∧ recBad.contributions_and_grants.isSome = true
      ∧ recBad.program_service_revenue.isSome = true
      ∧ recBad.fundraising_expenses.isSome = true
      ∧ recBad.largest_program_expenses.isSome = true
      ∧ recBad.top_individual_salaries ≠ []
      ∧ recBad.policies ≠ [] := by
  refine ⟨calculate_aem_recBad, rfl, rfl, rfl, rfl, rfl, rfl, by simp [recBad], by simp [recBad]⟩

/-- Claim C7 as amended: the scoring operation either returns a valid
result or fails with a single error which is either a `KeyError` naming a
missing required field or the `math.log10` domain error for a non-positive
fundraising efficiency; when `total_revenue` is absent it always fails
rather than returning a silently-defaulted score. -/
theorem claim_C7_error_handling (fin : FinancialRecord) :
    (∀ e, calculate_aem fin = .error e → e ∈ aem_error_messages)
      ∧ (fin.total_revenue = none → ∃ e, calculate_aem fin = .error e) := by
  constructor
  · intro e h
    unfold calculate_aem calculate_aemW at h
    cases hr : rawMetrics fin with
    | error e1 =>
      rw [hr] at h
      simp only [Except.error.injEq] at h
      subst h
      exact rawMetrics_error_msg fin e1 hr
    | ok raw => rw [hr] at h; exact absurd h (by simp)
  · intro hnone
    unfold calculate_aem calculate_aemW
    cases hr : rawMetrics fin with
    | error e1 => exact ⟨e1, rfl⟩
    | ok raw => exact absurd hnone (rawMetrics_ok_total_revenue fin raw hr)

/-- Witness for the amended C7: the domain-error record and the
field-free record. -/
theorem claim_C7_witness :
    calculate_aem recBad = .error "ValueError: math domain error"
      ∧ "ValueError: math domain error" ∈ aem_error_messages
      ∧ recNoRev.total_revenue = none
      ∧ calculate_aem recNoRev = .error "KeyError: fundraising_expenses"
      ∧ "KeyError: fundraising_expenses" ∈ aem_error_messages :=
  ⟨calculate_aem_recBad,
    (claim_C7_error_handling recBad).1 _ calculate_aem_recBad,
    rfl,
    calculate_aem_recNoRev,
    (claim_C7_error_handling recNoRev).1 _ calculate_aem_recNoRev⟩

/-! ### Claim C8: cross-entity comparison -/

/-- `rec1` with a different organization name and otherwise identical
financial data. -/
def rec2 : FinancialRecord := { rec1 with organization_name := "Beta School" }

/-- A record distinct from `rec1` (one disclosed policy flag) but with the
same organization name. -/
def recGamma : FinancialRecord := { rec1 with policies := [("conflict_of_interest_policy", true)] }

/-- The raw metric values the engine computes on `recGamma`. -/
noncomputable def rawGamma : Metric → ℝ
  | program_expense_ratio => sigmoid_normalization (2/5)
  | fundraising_efficiency => sigmoid_normalization (1/5)
  | revenue_sustainability => sigmoid_normalization (-(1/5))
  | net_surplus_margin => sigmoid_normalization (9/20)
  | executive_pay_reasonableness => 1/2
  | transparency => sigmoid_normalization (3/10)

theorem rawMetrics_rec2 : rawMetrics rec2 = .ok rawRec1 := by
  unfold rawMetrics
  have h1 : calculate_program_expense_ratio rec2 = .ok (sigmoid_normalization (2/5)) := by
    norm_num [calculate_program_expense_ratio, rec2, rec1]
  have h2 : calculate_fundraising_efficiency rec2 = .ok (sigmoid_normalization (1/5)) := by
    norm_num [calculate_fundraising_efficiency, rec2, rec1]
  have h3 : calculate_revenue_sustainability rec2 = .ok (sigmoid_normalization (-(1/5))) := by
    norm_num [calculate_revenue_sustainability, rec2, rec1, bindE, getField]
  have h4 : calculate_net_surplus_margin rec2 = .ok (sigmoid_normalization (9/20)) := by
    norm_num [calculate_net_surplus_margin, rec2, rec1, bindE, getField]
  have h5 : calculate_executive_pay_reasonableness rec2 = .ok (1/2) := by
    norm_num [calculate_executive_pay_reasonableness, rec2, rec1]
  rw [h1, h2, h3, h4, h5]
  simp only [bindE_ok]
  congr 1

theorem rawMetrics_recGamma : rawMetrics recGamma = .ok rawGamma := by
  unfold rawMetrics
  have h1 : calculate_program_expense_ratio recGamma = .ok (sigmoid_normalization (2/5)) := by
    norm_num [calculate_program_expense_ratio, recGamma, rec1]
  have h2 : calculate_fundraising_efficiency recGamma = .ok (sigmoid_normalization (1/5)) := by
    norm_num [calculate_fundraising_efficiency, recGamma, rec1]
  have h3 : calculate_revenue_sustainability recGamma = .ok (sigmoid_normalization (-(1/5))) := by
    norm_num [calculate_revenue_sustainability, recGamma, rec1, bindE, getField]
  have h4 : calculate_net_surplus_margin recGamma = .ok (sigmoid_normalization (9/20)) := by
    norm_num [calculate_net_surplus_margin, recGamma, rec1, bindE, getField]
  have h5 : calculate_executive_pay_reasonableness recGamma = .ok (1/2) := by
    norm_num [calculate_executive_pay_reasonableness, recGamma, rec1]
  rw [h1, h2, h3, h4, h5]
  simp only [bindE_ok]
  congr 1
  funext m
  cases m <;>
    norm_num [rawGamma, recGamma, rec1, fuzzy_policy_evaluation, zipPolicyScore,
      policy_weights_values]

theorem calculate_aem_recGamma :
    calculate_aem recGamma
      = .ok (scoreFromRaw base_weights rawGamma, multi_dimensional_normalization rawGamma) := by
  unfold calculate_aem calculate_aemW
  rw [rawMetrics_recGamma]

theorem calculate_aem_rec2 :
    calculate_aem rec2
      = .ok (scoreFromRaw base_weights rawRec1, multi_dimensional_normalization rawRec1) := by
  unfold calculate_aem calculate_aemW
  rw [rawMetrics_rec2]

/-- Counterexample to C8: `rec1` and `recGamma` are two distinct records
that share an organization name; the returned mapping has a single entry
(the dict literal's second value overwrote the first), not two independent
entries. -/
theorem claim_C8_counterexample :
    rec1 ≠ recGamma
      ∧ rec1.organization_name = recGamma.organization_name
      ∧ cross_validate_schools rec1 recGamma
          = .ok [("Alpha School",
              (scoreFromRaw base_weights rawGamma, multi_dimensional_normalization rawGamma))] := by
  refine ⟨fun h => ?_, rfl, ?_⟩
  · have := congrArg FinancialRecord.policies h
    simp [rec1, recGamma] at this
  · unfold cross_validate_schools
    rw [calculate_aem_rec1, calculate_aem_recGamma]
    simp only []
    have hcond : rec1.organization_name = recGamma.organization_name := rfl
    rw [if_pos hcond]
    rfl

/-- Claim C8 as amended: for two records with distinct organization names,
the comparison returns a two-entry mapping keyed by each record's name,
each entry exactly the result of scoring that record alone. -/
theorem claim_C8_cross_validate (d1 d2 : FinancialRecord) (r1 r2 : ℝ × (Metric → ℝ))
    (hname : d1.organization_name ≠ d2.organization_name)
    (h1 : calculate_aem d1 = .ok r1) (h2 : calculate_aem d2 = .ok r2) :
    cross_validate_schools d1 d2
      = .ok [(d1.organization_name, r1), (d2.organization_name, r2)] := by
  unfold cross_validate_schools
  rw [h1, h2]
  simp only []
  rw [if_neg hname]

/-- Witness for the amended C8 at `rec1` and `rec2`. -/
theorem claim_C8_witness :
    rec1.organization_name ≠ rec2.organization_name
      ∧ cross_validate_schools rec1 rec2
          = .ok [(rec1.organization_name,
                (scoreFromRaw base_weights rawRec1, multi_dimensional_normalization rawRec1)),
              (rec2.organization_name,
                (scoreFromRaw base_weights rawRec1, multi_dimensional_normalization rawRec1))] := by
  have hname : rec1.organization_name ≠ rec2.organization_name := by
    simp [rec1, rec2]
  exact ⟨hname, claim_C8_cross_validate rec1 rec2 _ _ hname calculate_aem_rec1 calculate_aem_rec2⟩

/-! ### Claim C9: sensitivity analysis -/

/-- Claim C9: every sensitivity value is nonnegative; with variation 0
every sensitivity value is 0; and the perturbed configuration used for
metric `m` is an independent copy of the base weights, agreeing with them
on every other metric (perturbations do not accumulate). -/
theorem claim_C9_sensitivity (fin : FinancialRecord) (v : ℝ) (s : Metric → ℝ)
    (h : sensitivity_analysis fin v = .ok s) :
    (∀ m, 0 ≤ s m)
      ∧ (v = 0 → ∀ m, s m = 0)
      ∧ (∀ m m', m' ≠ m → perturbedWeights v m m' = base_weights m') := by
  unfold sensitivity_analysis at h
  cases hr : rawMetrics fin with
  | error e => rw [hr] at h; exact absurd h (by simp)
  | ok raw =>
    rw [hr] at h
    simp only [Except.ok.injEq] at h
    subst h
    refine ⟨fun m => abs_nonneg _, fun hv m => ?_, fun m m' hm => Function.update_noteq hm _ _⟩
    have hw : perturbedWeights v m = base_weights := by
      funext k
      unfold perturbedWeights
      rw [Function.update_apply]
      split
      · subst hv; rename_i hk; rw [hk]; ring
      · rfl
    simp only []
    rw [hw, sub_self, abs_zero]

/-- Witness for C9 at `rec1` with variation 0. -/
theorem claim_C9_witness :
    sensitivity_analysis rec1 0
        = .ok (fun m =>
            |scoreFromRaw (perturbedWeights 0 m) rawRec1 - scoreFromRaw base_weights rawRec1|)
      ∧ 0 ≤ |scoreFromRaw (perturbedWeights 0 Metric.transparency) rawRec1
            - scoreFromRaw base_weights rawRec1|
      ∧ |scoreFromRaw (perturbedWeights 0 Metric.transparency) rawRec1
            - scoreFromRaw base_weights rawRec1| = 0
      ∧ perturbedWeights 0 Metric.transparency Metric.net_surplus_margin
          = base_weights Metric.net_surplus_margin := by
  have hok : sensitivity_analysis rec1 0
      = .ok (fun m =>
          |scoreFromRaw (perturbedWeights 0 m) rawRec1 - scoreFromRaw base_weights rawRec1|) := by
    unfold sensitivity_analysis
    rw [rawMetrics_rec1]
  have h := claim_C9_sensitivity rec1 0 _ hok
  exact ⟨hok, h.1 Metric.transparency, h.2.1 rfl Metric.transparency,
    h.2.2 Metric.transparency Metric.net_surplus_margin (by simp)⟩
